import Mathlib

/-
Verification of the weather-dashboard server (Express app in the repository's
single server source file) against its natural-language specification.

The embedding below translates the server's request handlers and the two
algorithmic pieces (forecast daily aggregation, multi-city comparison fan-out)
into pure Lean functions.  Upstream HTTP (axios) is modelled by an `Env` of
response functions; every outbound upstream call is additionally recorded in a
`List UpCall` log so that "no upstream call occurs" is a provable statement.

Numeric upstream fields that are floating point in JSON are modelled as
rationals; `Math.round` is floor(x + 1/2), which agrees with JS semantics on
rationals.  JS `Date` computations: `toDateString()` renders the calendar date
of the instant in the SERVER-LOCAL timezone; we model the server timezone as a
fixed offset `tz` in seconds and represent the bucket key by the local day
number (dt + tz) fdiv 86400, which classifies two timestamps together exactly
when `toDateString` would.  `toISOString().split('T')[0]` is the UTC day
number dt fdiv 86400.
-/

namespace WeatherDash

/-- JSON values, as far as the handlers inspect them (`req.body.cities` can be
any JSON value; `Array.isArray` and `.length` are the only checks made). -/
inductive Json where
  | null
  | bool (b : Bool)
  | num (n : Int)
  | str (s : String)
  | arr (xs : List Json)

/-- Boolean equality on JSON values (structural). -/
def Json.beq : Json → Json → Bool
  | .null, .null => true
  | .bool a, .bool b => a == b
  | .num a, .num b => a == b
  | .str a, .str b => a == b
  | .arr [], .arr [] => true
  | .arr (x :: xs), .arr (y :: ys) => Json.beq x y && Json.beq (.arr xs) (.arr ys)
  | _, _ => false

theorem Json.beq_refl : ∀ a : Json, Json.beq a a = true
  | .null => by simp [Json.beq]
  | .bool b => by simp [Json.beq]
  | .num n => by simp [Json.beq]
  | .str s => by simp [Json.beq]
  | .arr [] => by simp [Json.beq]
  | .arr (x :: xs) => by
      simp only [Json.beq, Bool.and_eq_true]
      exact ⟨Json.beq_refl x, Json.beq_refl (.arr xs)⟩

theorem Json.eq_of_beq : ∀ (a b : Json), Json.beq a b = true → a = b
  | .null, .null, _ => rfl
  | .bool a, .bool b, h => by
      simp only [Json.beq, beq_iff_eq] at h
      exact h ▸ rfl
  | .num a, .num b, h => by
      simp only [Json.beq, beq_iff_eq] at h
      exact h ▸ rfl
  | .str a, .str b, h => by
      simp only [Json.beq, beq_iff_eq] at h
      exact h ▸ rfl
  | .arr [], .arr [], _ => rfl
  | .arr (x :: xs), .arr (y :: ys), h => by
      simp only [Json.beq, Bool.and_eq_true] at h
      have h1 := Json.eq_of_beq x y h.1
      have h2 := Json.eq_of_beq (.arr xs) (.arr ys) h.2
      cases h1
      injection h2 with h2
      cases h2
      rfl
  | .null, .bool _, h => by simp [Json.beq] at h
  | .null, .num _, h => by simp [Json.beq] at h
  | .null, .str _, h => by simp [Json.beq] at h
  | .null, .arr [], h => by simp [Json.beq] at h
  | .null, .arr (_ :: _), h => by simp [Json.beq] at h
  | .bool _, .null, h => by simp [Json.beq] at h
  | .bool _, .num _, h => by simp [Json.beq] at h
  | .bool _, .str _, h => by simp [Json.beq] at h
  | .bool _, .arr [], h => by simp [Json.beq] at h
  | .bool _, .arr (_ :: _), h => by simp [Json.beq] at h
  | .num _, .null, h => by simp [Json.beq] at h
  | .num _, .bool _, h => by simp [Json.beq] at h
  | .num _, .str _, h => by simp [Json.beq] at h
  | .num _, .arr [], h => by simp [Json.beq] at h
  | .num _, .arr (_ :: _), h => by simp [Json.beq] at h
  | .str _, .null, h => by simp [Json.beq] at h
  | .str _, .bool _, h => by simp [Json.beq] at h
  | .str _, .num _, h => by simp [Json.beq] at h
  | .str _, .arr [], h => by simp [Json.beq] at h
  | .str _, .arr (_ :: _), h => by simp [Json.beq] at h
  | .arr _, .null, h => by simp [Json.beq] at h
  | .arr _, .bool _, h => by simp [Json.beq] at h
  | .arr _, .num _, h => by simp [Json.beq] at h
  | .arr _, .str _, h => by simp [Json.beq] at h
  | .arr [], .arr (_ :: _), h => by simp [Json.beq] at h
  | .arr (_ :: _), .arr [], h => by simp [Json.beq] at h

instance : DecidableEq Json := fun a b =>
  if h : Json.beq a b = true then isTrue (Json.eq_of_beq a b h)
  else isFalse fun he => h (he ▸ Json.beq_refl a)

/-- The `error.response` object axios attaches to HTTP-level failures
(`response.status`, `response.data.message`). -/
structure AxiosResp where
  status : Nat
  message : Option String
  deriving DecidableEq

/-- A thrown JS error as `handleApiError` sees it: a message, and an optional
axios `response` field.  `new Error('City not found')` has `response = none`. -/
structure JsError where
  message : String
  response : Option AxiosResp
  deriving DecidableEq

/-- One entry of the upstream geocoding response array. -/
structure GeoEntry where
  lat : Int
  lon : Int
  name : String
  country : String
  state : Option String
  deriving DecidableEq

/-- Result of `getCityCoordinates`. -/
structure Coords where
  lat : Int
  lon : Int
  name : String
  country : String
  state : Option String
  deriving DecidableEq

/-- Fields of the upstream current-weather payload that the handlers read
(`data.main.*`, `data.weather[0].*`, `data.wind?.*`, `data.clouds?.all`,
`data.visibility`). -/
structure CurrentWeatherData where
  temp : ℚ
  feels_like : ℚ
  humidity : Int
  pressure : Int
  visibility : Option Int
  description : String
  icon : String
  windSpeed : Option ℚ
  windDeg : Option Int
  cloudiness : Option Int
  deriving DecidableEq

/-- One upstream 3-hour forecast sample (`forecastResponse.data.list` item):
`dt` is epoch seconds, plus the fields the aggregator reads. -/
structure ForecastItem where
  dt : Nat
  temp_min : ℚ
  temp_max : ℚ
  description : String
  icon : String
  humidity : Int
  windSpeed : Option ℚ
  rain3h : Option ℚ
  deriving DecidableEq

/-- The upstream provider: geocoding (`/geo/1.0/direct` with a query and a
`limit`), current weather and forecast by coordinates.  A `.error` models an
axios rejection (network error or non-2xx HTTP response). -/
structure Env where
  geoDirect : String → Nat → Except JsError (List GeoEntry)
  weather : Int → Int → Except JsError CurrentWeatherData
  forecast : Int → Int → Except JsError (List ForecastItem)

/-- Log entry for an outbound upstream call. -/
inductive UpCall where
  | geo (q : String) (limit : Nat)
  | weather (lat lon : Int)
  | forecast (lat lon : Int)
  deriving DecidableEq

/-- JS `Math.round` on a rational: floor(x + 1/2), which rounds half toward
positive infinity exactly as JS does. -/
def jsRound (q : ℚ) : Int := ⌊q + 1/2⌋

/-- `Math.round(wind?.speed * 3.6 || 0)`: absent wind gives NaN, `|| 0` turns
it into 0; present wind is converted m/s → km/h and rounded.  A present speed
of 0 also hits the `|| 0` branch, with the same value 0. -/
def jsWindSpeed (w : Option ℚ) : Int :=
  match w with
  | none => 0
  | some v => jsRound (v * (18/5))

/-- `(data.visibility || 10000)`: absent or zero visibility becomes 10000. -/
def jsVisibility (v : Option Int) : Int :=
  match v with
  | none => 10000
  | some n => if n = 0 then 10000 else n

/-- JS `String.prototype.trim()`: strip leading and trailing whitespace.
Implemented over the string's character list so that it is computable by the
kernel (the library `String.trim` recurses on byte positions and does not
reduce). -/
def jsTrim (s : String) : String :=
  ⟨((s.data.dropWhile Char.isWhitespace).reverse.dropWhile Char.isWhitespace).reverse⟩

/-- axios query-parameter serialization of the value passed as `q` (the
compare endpoint can pass arbitrary JSON values through).  The exact rendering
of arrays is not depended on anywhere. -/
def paramStr : Json → String
  | .str s => s
  | .num n => toString n
  | .bool b => cond b "true" "false"
  | .null => "null"
  | .arr _ => "[array]"

/-- One aggregated day of the forecast response.  `date` is the UTC day
number (`toISOString().split('T')[0]`), `dayName` the weekday index of the
server-local date (`toLocaleDateString(..., {weekday})`), both represented
numerically. -/
structure DailySummary where
  date : Int
  dayName : Int
  tempMin : Int
  tempMax : Int
  description : String
  icon : String
  humidity : Int
  windSpeed : Int
  precipitation : ℚ
  deriving DecidableEq

/-- One element of the comparison response: the success object built in the
per-city `try` block, or the failure object built in its `catch`.  A failure
carries the original input element verbatim (any JSON value); a success
carries the geocoder-returned city name. -/
inductive CompEntry where
  | success (city country : String) (temperature : Int) (description icon : String)
      (humidity windSpeed : Int)
  | failure (city : Json) (error : String)

/-- Response bodies produced by the handlers. -/
inductive Body where
  | err (error message : String)
  | current (location : Coords) (temperature feelsLike humidity pressure visibility : Int)
      (description icon : String) (windSpeed windDirection cloudiness : Int)
  | forecastDays (location : Coords) (days : List DailySummary)
  | comparison (entries : List CompEntry)
  | cityList (cities : List GeoEntry) (query : String)

/-- An HTTP response: status code and JSON body. -/
structure Response where
  status : Nat
  body : Body

deriving instance DecidableEq for CompEntry

deriving instance DecidableEq for Body

deriving instance DecidableEq for Response

/-- The 500 response `validateApiKey` sends when the key is missing. -/
def configErrorResp : Response :=
  ⟨500, .err "Configuration Error" "Weather API key not configured"⟩

/-- `handleApiError`: dispatch on the presence of `error.response` and its
status; a plain thrown `Error` (no response) lands in the final 500 branch. -/
def handleApiError (e : JsError) : Response :=
  match e.response with
  | some r =>
      if r.status = 404 then
        ⟨404, .err "City Not Found" "The specified city could not be found"⟩
      else if r.status = 401 then
        ⟨500, .err "API Configuration Error" "Invalid API key configuration"⟩
      else
        ⟨r.status, .err "Weather Service Error" (r.message.getD "API request failed")⟩
  | none => ⟨500, .err "Service Unavailable" "Weather service is temporarily unavailable"⟩

/-- `getCityCoordinates`: one geocoding call with `limit: 1`; an empty result
array throws `new Error('City not found')` — a plain error with NO axios
`response` attached; otherwise the first entry is projected. -/
def getCityCoordinates (env : Env) (cityName : Json) : Except JsError Coords × List UpCall :=
  let q := paramStr cityName
  match env.geoDirect q 1 with
  | .error e => (.error e, [.geo q 1])
  | .ok [] => (.error ⟨"City not found", none⟩, [.geo q 1])
  | .ok (g :: _) => (.ok ⟨g.lat, g.lon, g.name, g.country, g.state⟩, [.geo q 1])

/- ### Forecast aggregation -/

/-- Local calendar day number of an epoch-seconds instant under server
timezone offset `tz` (seconds): this is what `toDateString()` distinguishes. -/
def localDay (tz : Int) (dt : Nat) : Int := Int.fdiv ((dt : Int) + tz) 86400

/-- The `dayKey` of a sample: `new Date(item.dt * 1000).toDateString()`,
represented by the server-local day number. -/
def dayKey (tz : Int) (item : ForecastItem) : Int := localDay tz item.dt

/-- Weekday index of a day number (epoch day 0 was a Thursday, index 4). -/
def weekdayIdx (d : Int) : Int := Int.emod (d + 4) 7

/-- The daily summary object pushed for the first sample of a new day. -/
def toSummary (tz : Int) (item : ForecastItem) : DailySummary :=
  { date := Int.fdiv (item.dt : Int) 86400
  , dayName := weekdayIdx (localDay tz item.dt)
  , tempMin := jsRound item.temp_min
  , tempMax := jsRound item.temp_max
  , description := item.description
  , icon := item.icon
  , humidity := item.humidity
  , windSpeed := jsWindSpeed item.windSpeed
  , precipitation := (jsRound ((item.rain3h.getD 0) * 100) : ℚ) / 100 }

/-- The `forecastData.forEach` loop: `acc` is `dailyForecasts`, `processed`
is the `processedDays` set; a sample is taken iff its day key is unseen and
fewer than 5 summaries exist. -/
def aggLoop (tz : Int) : List ForecastItem → List DailySummary → List Int → List DailySummary
  | [], acc, _ => acc
  | item :: rest, acc, processed =>
      if dayKey tz item ∉ processed ∧ acc.length < 5 then
        aggLoop tz rest (acc ++ [toSummary tz item]) (dayKey tz item :: processed)
      else
        aggLoop tz rest acc processed

/-- The aggregated `dailyForecasts` array for a forecast response. -/
def dailyForecasts (tz : Int) (forecastData : List ForecastItem) : List DailySummary :=
  aggLoop tz forecastData [] []

/-- Distinct day keys of a sample list in order of first appearance, relative
to an already-seen set (specification-side vocabulary for stating C2). -/
def keysAux (tz : Int) : List ForecastItem → List Int → List Int
  | [], _ => []
  | item :: rest, seen =>
      if dayKey tz item ∈ seen then keysAux tz rest seen
      else dayKey tz item :: keysAux tz rest (dayKey tz item :: seen)

/-- Distinct day keys in order of first appearance. -/
def firstKeys (tz : Int) (l : List ForecastItem) : List Int := keysAux tz l []

/-- Structural restatement of the forEach loop used as a stepping stone:
take the first sample of each unseen day while fuel remains. -/
def aggSpecF (tz : Int) : List ForecastItem → List Int → Nat → List DailySummary
  | [], _, _ => []
  | item :: rest, seen, fuel =>
      if fuel = 0 then []
      else if dayKey tz item ∈ seen then aggSpecF tz rest seen fuel
      else toSummary tz item :: aggSpecF tz rest (dayKey tz item :: seen) (fuel - 1)

/- ### Comparison endpoint -/

/-- The body of the per-city `async (city) => { try ... }` block in the
compare handler: geocode, then fetch current weather, then build the success
entry.  Any thrown error escapes as `.error`. -/
def cityTask (env : Env) (city : Json) : Except JsError CompEntry × List UpCall :=
  match getCityCoordinates env city with
  | (.error e, log) => (.error e, log)
  | (.ok coords, log) =>
      match env.weather coords.lat coords.lon with
      | .error e => (.error e, log ++ [.weather coords.lat coords.lon])
      | .ok d =>
          (.ok (.success coords.name coords.country (jsRound d.temp) d.description d.icon
              d.humidity (jsWindSpeed d.windSpeed)),
           log ++ [.weather coords.lat coords.lon])

/-- The whole per-city task including its `catch`: a failure is converted at
the task boundary into `{city: city, error: 'Failed to fetch weather data'}`
carrying the original input element. -/
def fetchCityWeather (env : Env) (city : Json) : CompEntry × List UpCall :=
  match cityTask env city with
  | (.ok entry, log) => (entry, log)
  | (.error _, log) => (.failure city "Failed to fetch weather data", log)

/-- `POST /api/weather/compare`: `validateApiKey`, then the two validation
checks (`!Array.isArray(cities) || cities.length === 0`, `cities.length > 5`),
then the concurrent fan-out joined by `Promise.all`. -/
def compareHandler (apiKey : Option String) (env : Env) (cities : Option Json) :
    Response × List UpCall :=
  match apiKey with
  | none => (configErrorResp, [])
  | some _ =>
      match cities with
      | some (.arr xs) =>
          if xs.length = 0 then
            (⟨400, .err "Validation Error" "Cities array is required"⟩, [])
          else if 5 < xs.length then
            (⟨400, .err "Validation Error" "Maximum 5 cities allowed for comparison"⟩, [])
          else
            let results := xs.map (fetchCityWeather env)
            (⟨200, .comparison (results.map Prod.fst)⟩, (results.map Prod.snd).flatten)
      | _ => (⟨400, .err "Validation Error" "Cities array is required"⟩, [])

/-- `Promise.all` slot model: each task, in the order it completes, writes its
outcome into the slot of its own index; slots start empty. -/
def settleSlots {α : Type} (outcomes : List α) (order : List Nat) : Nat → Option α :=
  order.foldl (fun slots i => Function.update slots i outcomes[i]?) (fun _ => none)

/-- The array `Promise.all` resolves with: the slots read back in index
order. -/
def promiseAllResult {α : Type} (outcomes : List α) (order : List Nat) : List (Option α) :=
  (List.range outcomes.length).map (settleSlots outcomes order)

/- ### Single-city endpoints -/

/-- `GET /api/weather/current/:city`. -/
def currentHandler (apiKey : Option String) (env : Env) (city : String) :
    Response × List UpCall :=
  match apiKey with
  | none => (configErrorResp, [])
  | some _ =>
      if jsTrim city = "" then
        (⟨400, .err "Validation Error" "City name is required"⟩, [])
      else
        match getCityCoordinates env (.str city) with
        | (.error e, log) => (handleApiError e, log)
        | (.ok coords, log) =>
            match env.weather coords.lat coords.lon with
            | .error e => (handleApiError e, log ++ [.weather coords.lat coords.lon])
            | .ok d =>
                (⟨200, .current ⟨coords.lat, coords.lon, coords.name, coords.country, coords.state⟩
                    (jsRound d.temp) (jsRound d.feels_like) d.humidity d.pressure
                    (jsRound ((jsVisibility d.visibility : ℚ) / 1000))
                    d.description d.icon (jsWindSpeed d.windSpeed)
                    (d.windDeg.getD 0) (d.cloudiness.getD 0)⟩,
                 log ++ [.weather coords.lat coords.lon])

/-- `GET /api/weather/forecast/:city` (tz is the server timezone offset). -/
def forecastHandler (apiKey : Option String) (tz : Int) (env : Env) (city : String) :
    Response × List UpCall :=
  match apiKey with
  | none => (configErrorResp, [])
  | some _ =>
      if jsTrim city = "" then
        (⟨400, .err "Validation Error" "City name is required"⟩, [])
      else
        match getCityCoordinates env (.str city) with
        | (.error e, log) => (handleApiError e, log)
        | (.ok coords, log) =>
            match env.forecast coords.lat coords.lon with
            | .error e => (handleApiError e, log ++ [.forecast coords.lat coords.lon])
            | .ok items =>
                (⟨200, .forecastDays ⟨coords.lat, coords.lon, coords.name, coords.country, coords.state⟩
                    (dailyForecasts tz items)⟩,
                 log ++ [.forecast coords.lat coords.lon])

/-- `GET /api/cities/search/:query`: `validateApiKey`, the minimum-length
check, then one geocoding call with `limit: 10`. -/
def searchHandler (apiKey : Option String) (env : Env) (query : String) :
    Response × List UpCall :=
  match apiKey with
  | none => (configErrorResp, [])
  | some _ =>
      if (jsTrim query).length < 2 then
        (⟨400, .err "Validation Error" "Search query must be at least 2 characters long"⟩, [])
      else
        match env.geoDirect query 10 with
        | .error e => (handleApiError e, [.geo query 10])
        | .ok cs => (⟨200, .cityList cs query⟩, [.geo query 10])

/- ### Rate limiter -/

/-- A per-key rate-limiter bucket: remaining points (kept as an integer so
that nonnegativity is a provable invariant, not a typing artifact) and the
instant the current window ends (epoch seconds). -/
structure Bucket where
  points_remaining : Int
  window_reset_at : Nat
  deriving DecidableEq

/-- Modelled from the spec: the `RateLimiterMemory` bucket refresh from
`rate-limiter-flexible` (the package implementing `rateLimiter.consume` is a
dependency, not part of this repository's sources).  A key seen for the first
time, or whose window has expired, gets a full bucket whose window ends
`win` seconds from now; otherwise the existing bucket stands. -/
def refresh (cap win : Nat) (now : Nat) : Option Bucket → Bucket
  | none => ⟨cap, now + win⟩
  | some b => if b.window_reset_at ≤ now then ⟨cap, now + win⟩ else b

/-- Modelled from the spec: `consume(key)` for one key.  After the window
refresh, a positive balance admits the call and is decremented by exactly 1;
a zero balance rejects it (QuotaExceeded) and is left unchanged. -/
def consume (cap win : Nat) (now : Nat) (b : Option Bucket) : Bool × Bucket :=
  let b := refresh cap win now b
  if 0 < b.points_remaining then
    (true, ⟨b.points_remaining - 1, b.window_reset_at⟩)
  else
    (false, b)

/-- A sequence of calls with one key at the given instants, threading the
bucket; returns the admit/reject outcomes in order and the final bucket. -/
def runCalls (cap win : Nat) : List Nat → Option Bucket → List Bool × Option Bucket
  | [], b => ([], b)
  | t :: ts, b =>
      let r := consume cap win t b
      let rest := runCalls cap win ts (some r.2)
      (r.1 :: rest.1, rest.2)

/-- The rate-limiting middleware around one request: an admitted call runs the
business-logic handler; a rejected one answers 429 immediately, so the handler
is never invoked and no upstream call is made. -/
def rateLimitedCall (cap win : Nat) (now : Nat) (b : Option Bucket)
    (handler : Unit → Response × List UpCall) : (Response × List UpCall) × Bucket :=
  let r := consume cap win now b
  if r.1 then (handler (), r.2)
  else ((⟨429, .err "Too many requests" "Rate limit exceeded. Please try again later."⟩, []), r.2)

/- ### Lemmas about forecast aggregation -/

theorem aggSpecF_fuel_zero (tz : Int) (l : List ForecastItem) (seen : List Int) :
    aggSpecF tz l seen 0 = [] := by
  cases l <;> simp [aggSpecF]

theorem aggLoop_eq_aggSpecF (tz : Int) :
    ∀ (l : List ForecastItem) (acc : List DailySummary) (seen : List Int),
      aggLoop tz l acc seen = acc ++ aggSpecF tz l seen (5 - acc.length) := by
  intro l
  induction l with
  | nil => intro acc seen; simp [aggLoop, aggSpecF]
  | cons item rest ih =>
      intro acc seen
      by_cases hk : dayKey tz item ∈ seen
      · rw [show aggLoop tz (item :: rest) acc seen = aggLoop tz rest acc seen by
          simp [aggLoop, hk]]
        rw [ih]
        by_cases hf : 5 - acc.length = 0
        · rw [hf, aggSpecF_fuel_zero, aggSpecF_fuel_zero]
        · congr 1
          rw [show aggSpecF tz (item :: rest) seen (5 - acc.length)
                = aggSpecF tz rest seen (5 - acc.length) by simp [aggSpecF, hf, hk]]
      · by_cases hlt : acc.length < 5
        · rw [show aggLoop tz (item :: rest) acc seen
                = aggLoop tz rest (acc ++ [toSummary tz item]) (dayKey tz item :: seen) by
            simp [aggLoop, hk, hlt]]
          rw [ih]
          rw [show aggSpecF tz (item :: rest) seen (5 - acc.length)
                = toSummary tz item :: aggSpecF tz rest (dayKey tz item :: seen)
                    (5 - acc.length - 1) by
            simp [aggSpecF, hk, Nat.sub_ne_zero_of_lt hlt]]
          have hlen : (acc ++ [toSummary tz item]).length = acc.length + 1 := by simp
          rw [hlen, List.append_assoc, List.singleton_append]
          congr 2
        · have hf : 5 - acc.length = 0 := by omega
          rw [show aggLoop tz (item :: rest) acc seen = aggLoop tz rest acc seen by
            simp [aggLoop, hlt]]
          rw [ih, hf, aggSpecF_fuel_zero, aggSpecF_fuel_zero]

theorem dailyForecasts_eq_aggSpecF (tz : Int) (l : List ForecastItem) :
    dailyForecasts tz l = aggSpecF tz l [] 5 := by
  simpa [dailyForecasts] using aggLoop_eq_aggSpecF tz l [] []

theorem aggSpecF_length (tz : Int) :
    ∀ (l : List ForecastItem) (seen : List Int) (fuel : Nat),
      (aggSpecF tz l seen fuel).length = min (keysAux tz l seen).length fuel := by
  intro l
  induction l with
  | nil => intro seen fuel; simp [aggSpecF, keysAux]
  | cons item rest ih =>
      intro seen fuel
      by_cases hf : fuel = 0
      · simp [aggSpecF, hf]
      · by_cases hk : dayKey tz item ∈ seen
        · simp [aggSpecF, keysAux, hf, hk, ih]
        · rw [show aggSpecF tz (item :: rest) seen fuel
                = toSummary tz item :: aggSpecF tz rest (dayKey tz item :: seen) (fuel - 1) by
            simp [aggSpecF, hf, hk]]
          rw [show keysAux tz (item :: rest) seen
                = dayKey tz item :: keysAux tz rest (dayKey tz item :: seen) by
            simp [keysAux, hk]]
          simp only [List.length_cons, ih]
          omega

theorem keysAux_not_mem (tz : Int) :
    ∀ (l : List ForecastItem) (seen : List Int) (k : Int),
      k ∈ keysAux tz l seen → k ∉ seen := by
  intro l
  induction l with
  | nil => intro seen k h; simp [keysAux] at h
  | cons item rest ih =>
      intro seen k h
      by_cases hk : dayKey tz item ∈ seen
      · exact ih _ _ (by simpa [keysAux, hk] using h)
      · have h2 : k = dayKey tz item ∨ k ∈ keysAux tz rest (dayKey tz item :: seen) := by
          simpa [keysAux, hk] using h
        rcases h2 with h2 | h2
        · subst h2; exact hk
        · have h3 := ih _ _ h2
          intro hmem
          exact h3 (by simp [hmem])

theorem filterMap_congr_mem {α β : Type} {l : List α} {f g : α → Option β}
    (h : ∀ a ∈ l, f a = g a) : l.filterMap f = l.filterMap g := by
  induction l with
  | nil => rfl
  | cons a t ih =>
      rw [List.filterMap_cons, List.filterMap_cons, h a (by simp),
        ih fun x hx => h x (by simp [hx])]

theorem find?_cons_skip {α : Type} (p : α → Bool) (a : α) (l : List α) (h : p a = false) :
    (a :: l).find? p = l.find? p := by
  simp [List.find?, h]

theorem find?_cons_hit {α : Type} (p : α → Bool) (a : α) (l : List α) (h : p a = true) :
    (a :: l).find? p = some a := by
  simp [List.find?, h]

theorem aggSpecF_eq_filterMap (tz : Int) :
    ∀ (l : List ForecastItem) (seen : List Int) (fuel : Nat),
      aggSpecF tz l seen fuel
        = ((keysAux tz l seen).take fuel).filterMap
            (fun k => (l.find? (fun s => dayKey tz s == k)).map (toSummary tz)) := by
  intro l
  induction l with
  | nil => intro seen fuel; simp [aggSpecF, keysAux]
  | cons item rest ih =>
      intro seen fuel
      by_cases hf : fuel = 0
      · simp [aggSpecF, hf]
      · by_cases hk : dayKey tz item ∈ seen
        · rw [show aggSpecF tz (item :: rest) seen fuel = aggSpecF tz rest seen fuel by
            simp [aggSpecF, hf, hk]]
          rw [ih]
          rw [show keysAux tz (item :: rest) seen = keysAux tz rest seen by
            simp [keysAux, hk]]
          apply filterMap_congr_mem
          intro k hkmem
          have hmem : k ∈ keysAux tz rest seen := List.take_subset _ _ hkmem
          have hne : (dayKey tz item == k) = false := by
            simp only [beq_eq_false_iff_ne]
            intro he
            exact keysAux_not_mem tz rest seen k hmem (he ▸ hk)
          rw [find?_cons_skip _ item rest hne]
        · obtain ⟨fuel, rfl⟩ : ∃ n, fuel = n + 1 :=
            ⟨fuel - 1, (Nat.succ_pred_eq_of_ne_zero hf).symm⟩
          rw [show aggSpecF tz (item :: rest) seen (fuel + 1)
                = toSummary tz item :: aggSpecF tz rest (dayKey tz item :: seen) fuel by
            simp [aggSpecF, hk]]
          rw [show keysAux tz (item :: rest) seen
                = dayKey tz item :: keysAux tz rest (dayKey tz item :: seen) by
            simp [keysAux, hk]]
          have hhead : ((item :: rest).find?
                (fun s => dayKey tz s == dayKey tz item)).map (toSummary tz)
              = some (toSummary tz item) := by
            rw [find?_cons_hit _ item rest (by simp)]
            rfl
          rw [List.take_succ_cons]
          simp only [List.filterMap_cons, hhead]
          congr 1
          rw [ih]
          apply filterMap_congr_mem
          intro k hkmem
          have hmem : k ∈ keysAux tz rest (dayKey tz item :: seen) :=
            List.take_subset _ _ hkmem
          have hne : (dayKey tz item == k) = false := by
            simp only [beq_eq_false_iff_ne]
            intro he
            exact keysAux_not_mem tz rest _ k hmem (by simp [he])
          rw [find?_cons_skip _ item rest hne]

/-- C2: the aggregator scans samples in order, emits one summary per distinct
calendar date in order of first appearance, each built from the FIRST sample
of that date; the output length is min(distinct dates, 5), never more than 5,
and empty input yields empty output. -/
theorem C2_forecast_aggregation (tz : Int) (l : List ForecastItem) :
    (dailyForecasts tz l).length = min (firstKeys tz l).length 5
    ∧ (dailyForecasts tz l).length ≤ 5
    ∧ dailyForecasts tz l
        = ((firstKeys tz l).take 5).filterMap
            (fun k => (l.find? (fun s => dayKey tz s == k)).map (toSummary tz))
    ∧ dailyForecasts tz ([] : List ForecastItem) = [] := by
  refine ⟨?_, ?_, ?_, rfl⟩
  · rw [dailyForecasts_eq_aggSpecF, aggSpecF_length]; rfl
  · rw [dailyForecasts_eq_aggSpecF, aggSpecF_length]; exact Nat.min_le_right _ _
  · rw [dailyForecasts_eq_aggSpecF, aggSpecF_eq_filterMap]; rfl

/- ### C9: idempotence on daily-deduplicated input -/

theorem aggLoop_of_nodup (tz : Int) :
    ∀ (l : List ForecastItem) (acc : List DailySummary) (seen : List Int),
      (l.map (dayKey tz)).Nodup → (∀ s ∈ l, dayKey tz s ∉ seen) →
      acc.length + l.length ≤ 5 →
      aggLoop tz l acc seen = acc ++ l.map (toSummary tz) := by
  intro l
  induction l with
  | nil => intro acc seen _ _ _; simp [aggLoop]
  | cons item rest ih =>
      intro acc seen hnd hdisj hlen
      have hk : dayKey tz item ∉ seen := hdisj item (by simp)
      have hlt : acc.length < 5 := by
        simp only [List.length_cons] at hlen; omega
      rw [show aggLoop tz (item :: rest) acc seen
            = aggLoop tz rest (acc ++ [toSummary tz item]) (dayKey tz item :: seen) by
        simp [aggLoop, hk, hlt]]
      rw [List.map_cons, List.nodup_cons] at hnd
      rw [ih (acc ++ [toSummary tz item]) (dayKey tz item :: seen) hnd.2 ?_ ?_]
      · simp
      · intro s hs
        simp only [List.mem_cons, not_or]
        constructor
        · intro he
          exact hnd.1 (he ▸ List.mem_map_of_mem (dayKey tz) hs)
        · exact hdisj s (by simp [hs])
      · have h1 : (acc ++ [toSummary tz item]).length = acc.length + 1 := by simp
        rw [h1]
        simp only [List.length_cons] at hlen
        omega

/-- A forecast sample with the given epoch-seconds timestamp and fixed
weather fields. -/
def sampleAt (dt : Nat) : ForecastItem :=
  ⟨dt, 1, 2, "clear sky", "01d", 50, none, none⟩

/-- Six samples on six consecutive UTC days. -/
def sixDistinctDays : List ForecastItem :=
  [sampleAt 0, sampleAt 86400, sampleAt 172800, sampleAt 259200,
   sampleAt 345600, sampleAt 432000]

/-- C9 counterexample: an input with one sample per calendar date but six
distinct dates is NOT returned unchanged — the aggregator caps the output at
five entries, so the claim fails as stated. -/
theorem C9_counterexample :
    (sixDistinctDays.map (dayKey 0)).Nodup
    ∧ sixDistinctDays.length = 6
    ∧ (dailyForecasts 0 sixDistinctDays).length = 5
    ∧ dailyForecasts 0 sixDistinctDays ≠ sixDistinctDays.map (toSummary 0) := by
  refine ⟨by decide, rfl, by decide, ?_⟩
  intro h
  have hlen := congrArg List.length h
  revert hlen
  decide

/-- C9 (amended): on input with at most one sample per calendar date AND at
most 5 samples, aggregation returns one summary per input sample, in the same
order, each mapped field-for-field from its sample. -/
theorem C9_amended_idempotent (tz : Int) (l : List ForecastItem)
    (hnd : (l.map (dayKey tz)).Nodup) (hlen : l.length ≤ 5) :
    dailyForecasts tz l = l.map (toSummary tz) := by
  simpa [dailyForecasts] using
    aggLoop_of_nodup tz l [] [] hnd (by simp) (by simpa using hlen)

/-- C9 witness: the amended theorem evaluated on a concrete two-day input. -/
theorem C9_amended_idempotent_witness :
    dailyForecasts 0 [sampleAt 0, sampleAt 86400]
      = [sampleAt 0, sampleAt 86400].map (toSummary 0) :=
  C9_amended_idempotent 0 [sampleAt 0, sampleAt 86400] (by decide) (by decide)

/- ### C6: bucketing depends on the server timezone -/

/-- C6 counterexample: two samples half an hour either side of UTC midnight
(23:30 and 00:30) have different calendar dates in the timestamps' own (UTC
epoch) frame, yet under a server timezone offset of +1h (3600 s) they land in
the SAME daily bucket, while under offset 0 they land in different buckets —
the bucketing is not independent of the server's timezone setting. -/
theorem C6_counterexample :
    localDay 0 (sampleAt 84600).dt ≠ localDay 0 (sampleAt 88200).dt
    ∧ (dailyForecasts 0 [sampleAt 84600, sampleAt 88200]).length = 2
    ∧ (dailyForecasts 3600 [sampleAt 84600, sampleAt 88200]).length = 1 := by
  refine ⟨by decide, by decide, by decide⟩

/-- C6 (amended): the aggregator computes each sample's calendar date by
converting its epoch timestamp to the SERVER-LOCAL timezone
(`new Date(dt*1000).toDateString()`), so two samples share a daily bucket
exactly when they fall on the same calendar date in the server's local
timezone; bucketing therefore depends on the server timezone offset. -/
theorem C6_amended_local_bucketing (tz : Int) (a b : ForecastItem) :
    (dailyForecasts tz [a, b]).length
      = if localDay tz a.dt = localDay tz b.dt then 1 else 2 := by
  by_cases h : localDay tz a.dt = localDay tz b.dt
  · simp [dailyForecasts, aggLoop, dayKey, h]
  · have h2 : localDay tz b.dt ≠ localDay tz a.dt := fun he => h he.symm
    simp [dailyForecasts, aggLoop, dayKey, h, h2]

/- ### Concrete upstream environments used for witnesses and counterexamples -/

def geoToronto : GeoEntry := ⟨43, -79, "Toronto", "CA", some "Ontario"⟩

def geoNewYork : GeoEntry := ⟨40, -74, "New York", "US", some "New York"⟩

def geoParis : GeoEntry := ⟨48, 2, "Paris", "FR", none⟩

def wxData : CurrentWeatherData :=
  ⟨20, 19, 65, 1013, some 10000, "clear sky", "01d", some 5, some 180, some 0⟩

/-- A concrete upstream in which "Toronto" and "Paris" resolve, the query
"nyc" resolves to the entry named "New York", and every other query returns
an empty geocoding result (HTTP 200 with `[]`, as the real provider does). -/
def envDemo : Env :=
  { geoDirect := fun q _ =>
      if q = "Toronto" then .ok [geoToronto]
      else if q = "Paris" then .ok [geoParis]
      else if q = "nyc" then .ok [geoNewYork]
      else .ok []
  , weather := fun _ _ => .ok wxData
  , forecast := fun _ _ => .ok [] }

/- ### Promise.all slot lemmas -/

theorem settleSlots_foldl {α : Type} (outcomes : List α) :
    ∀ (order : List Nat) (acc : Nat → Option α) (j : Nat),
      (order.foldl (fun slots i => Function.update slots i outcomes[i]?) acc) j
        = if j ∈ order then outcomes[j]? else acc j := by
  intro order
  induction order with
  | nil => intro acc j; simp
  | cons i rest ih =>
      intro acc j
      rw [List.foldl_cons, ih]
      by_cases hj : j ∈ rest
      · simp [hj]
      · by_cases hji : j = i
        · subst hji
          simp [hj, Function.update_same]
        · simp [hj, hji, Function.update_noteq hji]

theorem promiseAllResult_covers {α : Type} (outcomes : List α) (order : List Nat)
    (hcov : ∀ j, j < outcomes.length → j ∈ order) :
    promiseAllResult outcomes order = outcomes.map some := by
  apply List.ext_getElem
  · simp [promiseAllResult]
  · intro i h1 h2
    have hi : i < outcomes.length := by simpa [promiseAllResult] using h1
    simp only [promiseAllResult, List.getElem_map, List.getElem_range, settleSlots]
    rw [settleSlots_foldl]
    simp [hcov i hi, List.getElem?_eq_getElem hi]

/-- Shared shape of a validated compare response. -/
theorem compareHandler_valid (k : String) (env : Env) (xs : List Json)
    (h1 : 1 ≤ xs.length) (h2 : xs.length ≤ 5) :
    compareHandler (some k) env (some (.arr xs))
      = (⟨200, .comparison (xs.map (fun c => (fetchCityWeather env c).1))⟩,
         (xs.map (fun c => (fetchCityWeather env c).2)).flatten) := by
  have h0 : ¬ xs.length = 0 := by omega
  have h5 : ¬ 5 < xs.length := by omega
  simp only [compareHandler, h0, h5, if_false, ite_false, List.map_map]
  rfl

/-- C1: a validated comparison request (1–5 cities) yields a 200 response
whose entry list has one entry per input city, the i-th entry being the i-th
city's lookup outcome, and reassembling the per-task outcomes in ANY
completion order that settles every task produces exactly that input-ordered
sequence — completion order is not observable in the response. -/
theorem C1_compare_input_order (k : String) (env : Env) (xs : List Json)
    (h1 : 1 ≤ xs.length) (h2 : xs.length ≤ 5) :
    (compareHandler (some k) env (some (.arr xs))).1
        = ⟨200, .comparison (xs.map (fun c => (fetchCityWeather env c).1))⟩
    ∧ (xs.map (fun c => (fetchCityWeather env c).1)).length = xs.length
    ∧ ∀ order : List Nat, (∀ j, j < xs.length → j ∈ order) →
        promiseAllResult (xs.map (fun c => (fetchCityWeather env c).1)) order
          = (xs.map (fun c => (fetchCityWeather env c).1)).map some := by
  refine ⟨?_, by simp, ?_⟩
  · rw [compareHandler_valid k env xs h1 h2]
  · intro order hcov
    exact promiseAllResult_covers _ order (by simpa using hcov)

/-- C1 witness: a concrete two-city request, with the slot assembly also
evaluated at a completion order that finishes the second city first. -/
theorem C1_compare_input_order_witness :
    (compareHandler (some "k") envDemo
        (some (.arr [.str "Toronto", .str "Paris"]))).1
      = ⟨200, .comparison ([Json.str "Toronto", Json.str "Paris"].map
          (fun c => (fetchCityWeather envDemo c).1))⟩
    ∧ promiseAllResult
        ([Json.str "Toronto", Json.str "Paris"].map
          (fun c => (fetchCityWeather envDemo c).1)) [1, 0]
      = ([Json.str "Toronto", Json.str "Paris"].map
          (fun c => (fetchCityWeather envDemo c).1)).map some := by
  have h := C1_compare_input_order "k" envDemo
    [.str "Toronto", .str "Paris"] (by decide) (by decide)
  exact ⟨h.1, h.2.2 [1, 0] (by decide)⟩

/-- C3: for a validated batch, every per-city failure is caught at the task
boundary and becomes a failure entry carrying the original input element and
an error description, successful tasks pass their entry through unchanged,
each entry sits at its own city's input position, and the whole request is
answered 200 no matter which cities failed. -/
theorem C3_partial_failure_isolation (k : String) (env : Env) (xs : List Json)
    (h1 : 1 ≤ xs.length) (h2 : xs.length ≤ 5) :
    (compareHandler (some k) env (some (.arr xs))).1.status = 200
    ∧ (compareHandler (some k) env (some (.arr xs))).1.body
        = .comparison (xs.map (fun c => (fetchCityWeather env c).1))
    ∧ (∀ c e log, cityTask env c = (.error e, log) →
        fetchCityWeather env c = (.failure c "Failed to fetch weather data", log))
    ∧ (∀ c entry log, cityTask env c = (.ok entry, log) →
        fetchCityWeather env c = (entry, log)) := by
  refine ⟨?_, ?_, ?_, ?_⟩
  · rw [compareHandler_valid k env xs h1 h2]
  · rw [compareHandler_valid k env xs h1 h2]
  · intro c e log h
    simp [fetchCityWeather, h]
  · intro c entry log h
    simp [fetchCityWeather, h]

/-- C3 witness: a concrete batch with an unresolvable middle city — the
response is the full entry list with a failure entry exactly at position 2. -/
theorem C3_partial_failure_isolation_witness :
    (compareHandler (some "k") envDemo
        (some (.arr [.str "Toronto", .str "Nowhere", .str "Paris"]))).1.body
      = .comparison
          [ .success "Toronto" "CA" 20 "clear sky" "01d" 65 18
          , .failure (.str "Nowhere") "Failed to fetch weather data"
          , .success "Paris" "FR" 20 "clear sky" "01d" 65 18 ] := by
  rw [(C3_partial_failure_isolation "k" envDemo
      [.str "Toronto", .str "Nowhere", .str "Paris"]
      (by decide) (by decide)).2.1]
  norm_num +decide [fetchCityWeather, cityTask, getCityCoordinates, envDemo, paramStr,
    geoToronto, geoParis, wxData, jsRound, jsWindSpeed]

/-- C10: a successful comparison entry's city field is the name returned by
the geocoder for that lookup, a failed entry's city field is the original
input value verbatim, and the geocoder name can differ from the input
string (here the input "nyc" yields the entry name "New York"). -/
theorem C10_entry_city_provenance (env : Env) (v : Json) :
    (∀ c log d, getCityCoordinates env v = (.ok c, log) →
        env.weather c.lat c.lon = .ok d →
        (fetchCityWeather env v).1
          = .success c.name c.country (jsRound d.temp) d.description d.icon
              d.humidity (jsWindSpeed d.windSpeed))
    ∧ (∀ c log e, getCityCoordinates env v = (.ok c, log) →
        env.weather c.lat c.lon = .error e →
        (fetchCityWeather env v).1 = .failure v "Failed to fetch weather data")
    ∧ (∀ e log, getCityCoordinates env v = (.error e, log) →
        (fetchCityWeather env v).1 = .failure v "Failed to fetch weather data")
    ∧ ((fetchCityWeather envDemo (.str "nyc")).1
          = .success "New York" "US" 20 "clear sky" "01d" 65 18
       ∧ "New York" ≠ "nyc") := by
  refine ⟨?_, ?_, ?_,
    by norm_num +decide [fetchCityWeather, cityTask, getCityCoordinates, envDemo, paramStr,
      geoNewYork, wxData, jsRound, jsWindSpeed],
    by decide⟩
  · intro c log d hg hw
    simp [fetchCityWeather, cityTask, hg, hw]
  · intro c log e hg hw
    simp [fetchCityWeather, cityTask, hg, hw]
  · intro e log hg
    simp [fetchCityWeather, cityTask, hg]

/-- C10 witness: the success case at a concrete environment and city. -/
theorem C10_entry_city_provenance_witness :
    (fetchCityWeather envDemo (.str "Toronto")).1
      = .success "Toronto" "CA" 20 "clear sky" "01d" 65 18 :=
  ((C10_entry_city_provenance envDemo (.str "Toronto")).1
    ⟨43, -79, "Toronto", "CA", some "Ontario"⟩ [.geo "Toronto" 1] wxData
    rfl rfl).trans (by norm_num [wxData, jsRound, jsWindSpeed])

/-- C7 counterexample: a one-element cities array whose element is a NUMBER
(not a string) passes validation — only `Array.isArray` and the length are
checked — so the response is 200, not the claimed 400, and a geocoding
upstream call does occur. -/
theorem C7_counterexample :
    (compareHandler (some "k") envDemo (some (.arr [.num 42]))).1.status = 200
    ∧ (compareHandler (some "k") envDemo (some (.arr [.num 42]))).2
        = [.geo "42" 1] := by
  exact ⟨rfl, by decide⟩

/-- C7 (amended): a missing or non-array `cities` value or an empty array is
rejected 400 "Cities array is required" before any upstream call, an array
longer than 5 is rejected 400 "Maximum 5 cities allowed for comparison"
before any upstream call, but element TYPES are not validated: any array of
1 to 5 JSON values of any type passes validation and proceeds to the
per-element lookups with a 200 response. -/
theorem C7_amended_validation (k : String) (env : Env) (c : Option Json) :
    ((∀ xs, c ≠ some (.arr xs)) →
        compareHandler (some k) env c
          = (⟨400, .err "Validation Error" "Cities array is required"⟩, []))
    ∧ (∀ xs, c = some (.arr xs) → xs.length = 0 →
        compareHandler (some k) env c
          = (⟨400, .err "Validation Error" "Cities array is required"⟩, []))
    ∧ (∀ xs, c = some (.arr xs) → 5 < xs.length →
        compareHandler (some k) env c
          = (⟨400, .err "Validation Error" "Maximum 5 cities allowed for comparison"⟩, []))
    ∧ (∀ xs, c = some (.arr xs) → 1 ≤ xs.length → xs.length ≤ 5 →
        (compareHandler (some k) env c).1.status = 200) := by
  refine ⟨?_, ?_, ?_, ?_⟩
  · intro h
    match c with
    | none => rfl
    | some .null => rfl
    | some (.bool b) => rfl
    | some (.num n) => rfl
    | some (.str s) => rfl
    | some (.arr xs) => exact absurd rfl (h xs)
  · intro xs hc h0
    subst hc
    simp [compareHandler, h0]
  · intro xs hc h5
    subst hc
    have h0 : ¬ xs.length = 0 := by omega
    simp [compareHandler, h0, h5]
  · intro xs hc hl hu
    subst hc
    rw [compareHandler_valid k env xs hl hu]

/-- C7 witness: the length-6 rejection at a concrete input. -/
theorem C7_amended_validation_witness :
    compareHandler (some "k") envDemo
        (some (.arr [.str "a", .str "b", .str "c", .str "d", .str "e", .str "f"]))
      = (⟨400, .err "Validation Error" "Maximum 5 cities allowed for comparison"⟩, []) :=
  (C7_amended_validation "k" envDemo _).2.2.1 _ rfl (by decide)

/-- C5 (code divergence): when the geocoder cannot resolve the city (empty
geocoding result array), the thrown plain `Error('City not found')` carries
no axios `response`, so `handleApiError` falls into its final branch and
both single-city endpoints answer 500 "Service Unavailable" — not the 404
the specification (and the repository's own invalid-city test) requires. -/
theorem C5_unresolvable_city_responds_500 :
    currentHandler (some "k") envDemo "InvalidCityName12345"
      = (⟨500, .err "Service Unavailable" "Weather service is temporarily unavailable"⟩,
         [.geo "InvalidCityName12345" 1])
    ∧ forecastHandler (some "k") 0 envDemo "InvalidCityName12345"
      = (⟨500, .err "Service Unavailable" "Weather service is temporarily unavailable"⟩,
         [.geo "InvalidCityName12345" 1]) := by
  refine ⟨?_, ?_⟩ <;>
    simp +decide [currentHandler, forecastHandler, getCityCoordinates, envDemo,
      paramStr, handleApiError]

/-- C8: with the upstream credential absent, every weather/city endpoint is
answered with the 500 configuration error and no upstream call is made. -/
theorem C8_missing_key_short_circuits (env : Env) (city query : String)
    (tz : Int) (c : Option Json) :
    currentHandler none env city = (configErrorResp, [])
    ∧ forecastHandler none tz env city = (configErrorResp, [])
    ∧ compareHandler none env c = (configErrorResp, [])
    ∧ searchHandler none env query = (configErrorResp, []) :=
  ⟨rfl, rfl, rfl, rfl⟩

/- ### Rate-limiter lemmas -/

theorem runCalls_append (cap win : Nat) :
    ∀ (l1 l2 : List Nat) (b : Option Bucket),
      runCalls cap win (l1 ++ l2) b
        = ((runCalls cap win l1 b).1 ++ (runCalls cap win l2 (runCalls cap win l1 b).2).1,
           (runCalls cap win l2 (runCalls cap win l1 b).2).2) := by
  intro l1
  induction l1 with
  | nil => intro l2 b; simp [runCalls]
  | cons t ts ih =>
      intro l2 b
      simp only [List.cons_append, runCalls, List.append_eq]
      rw [ih]

/-- Outcome of a burst of calls that all happen strictly before the current
window's reset instant, starting from a bucket with `p ≥ 0` points: the first
`p` calls are admitted, the rest rejected, and the window end is unchanged. -/
theorem runCalls_within_window :
    ∀ (ts : List Nat) (p : Int) (r : Nat), 0 ≤ p → (∀ t ∈ ts, t < r) →
      runCalls 100 60 ts (some ⟨p, r⟩)
        = ((List.range ts.length).map (fun (i : Nat) => decide ((i : Int) < p)),
           some ⟨p - min (ts.length : Int) p, r⟩) := by
  intro ts
  induction ts with
  | nil =>
      intro p r hp _
      simp [runCalls, min_eq_left hp]
  | cons t ts ih =>
      intro p r hp hbound
      have hsnd : ∀ (a b : Int), a = b →
          (some (⟨a, r⟩ : Bucket) : Option Bucket) = some ⟨b, r⟩ := by
        intro a b h
        rw [h]
      have ht : ¬ r ≤ t := by
        have := hbound t (by simp)
        omega
      have hbt : ∀ x ∈ ts, x < r := fun x hx => hbound x (by simp [hx])
      have hrun : runCalls 100 60 (t :: ts) (some ⟨p, r⟩)
          = ((consume 100 60 t (some ⟨p, r⟩)).1 ::
              (runCalls 100 60 ts (some (consume 100 60 t (some ⟨p, r⟩)).2)).1,
             (runCalls 100 60 ts (some (consume 100 60 t (some ⟨p, r⟩)).2)).2) := rfl
      by_cases hpos : 0 < p
      · have hcons : consume 100 60 t (some ⟨p, r⟩) = (true, ⟨p - 1, r⟩) := by
          simp [consume, refresh, ht, hpos]
        rw [hrun, hcons]
        simp only
        rw [ih (p - 1) r (by omega) hbt]
        refine Prod.ext ?_ ?_
        · simp only [List.length_cons, List.range_succ_eq_map, List.map_cons, List.map_map]
          congr 1
          · symm
            simp only [Nat.cast_zero, decide_eq_true_eq]
            exact hpos
          · apply List.map_congr_left
            intro i hi
            simp only [Function.comp]
            rw [decide_eq_decide]
            omega
        · simp only [List.length_cons]
          apply hsnd
          push_cast
          omega
      · have hp0 : p = 0 := by omega
        subst hp0
        have hcons : consume 100 60 t (some ⟨0, r⟩) = (false, ⟨0, r⟩) := by
          simp [consume, refresh, ht]
        rw [hrun, hcons]
        simp only
        rw [ih 0 r le_rfl hbt]
        refine Prod.ext ?_ ?_
        · simp only [List.length_cons, List.range_succ_eq_map, List.map_cons, List.map_map]
          congr 1
        · simp only [List.length_cons]
          apply hsnd
          push_cast
          omega

/-- A first-ever call with a key: a fresh full bucket is created, the call is
admitted and one point is taken. -/
theorem consume_fresh (t : Nat) :
    consume 100 60 t none = (true, ⟨99, t + 60⟩) := by
  simp [consume, refresh]

/-- A call whose key's window has expired: the bucket is refreshed to full
capacity with a new window before the decrement. -/
theorem consume_expired (now : Nat) (b : Bucket) (h : b.window_reset_at ≤ now) :
    consume 100 60 now (some b) = (true, ⟨99, now + 60⟩) := by
  simp [consume, refresh, h]

set_option maxRecDepth 10000 in
/-- C4: per admitted call the refreshed balance drops by exactly 1 out of
capacity 100 per 60-second window; the balance never goes negative; an
expired window is refreshed to full capacity; a fresh key admits exactly 100
calls inside one window and the 101st is rejected; a rejected call is
answered 429 without invoking the business-logic handler (no upstream call);
and after window expiry the same key is admitted 100 further times. -/
theorem C4_rate_limiter (t0 t1 : Nat) (rest rest2 : List Nat)
    (h100 : rest.length = 100) (hrest : ∀ t ∈ rest, t < t0 + 60)
    (hexp : t0 + 60 ≤ t1) (h99 : rest2.length = 99)
    (hrest2 : ∀ t ∈ rest2, t < t1 + 60) :
    (∀ now b, 0 ≤ (refresh 100 60 now b).points_remaining →
        0 ≤ (consume 100 60 now b).2.points_remaining
        ∧ ((consume 100 60 now b).1 = true →
            (consume 100 60 now b).2.points_remaining
              = (refresh 100 60 now b).points_remaining - 1))
    ∧ (∀ now (b : Bucket), b.window_reset_at ≤ now →
        refresh 100 60 now (some b) = ⟨100, now + 60⟩)
    ∧ (runCalls 100 60 (t0 :: rest) none).1
        = List.replicate 100 true ++ [false]
    ∧ (∀ now b h, (consume 100 60 now b).1 = false →
        (rateLimitedCall 100 60 now b h).1
          = (⟨429, .err "Too many requests" "Rate limit exceeded. Please try again later."⟩, []))
    ∧ (runCalls 100 60 ((t0 :: rest) ++ (t1 :: rest2)) none).1
        = (List.replicate 100 true ++ [false]) ++ List.replicate 100 true := by
  have hb : runCalls 100 60 (t0 :: rest) none
      = (true :: (List.range 100).map (fun (i : Nat) => decide ((i : Int) < 99)),
         some ⟨0, t0 + 60⟩) := by
    rw [show runCalls 100 60 (t0 :: rest) none
          = ((consume 100 60 t0 none).1 ::
              (runCalls 100 60 rest (some (consume 100 60 t0 none).2)).1,
             (runCalls 100 60 rest (some (consume 100 60 t0 none).2)).2) from rfl]
    rw [consume_fresh]
    rw [runCalls_within_window rest 99 (t0 + 60) (by norm_num) hrest]
    rw [h100]
    norm_num
  have hb2 : runCalls 100 60 (t1 :: rest2) (some ⟨0, t0 + 60⟩)
      = (true :: (List.range 99).map (fun (i : Nat) => decide ((i : Int) < 99)),
         some ⟨0, t1 + 60⟩) := by
    rw [show runCalls 100 60 (t1 :: rest2) (some ⟨0, t0 + 60⟩)
          = ((consume 100 60 t1 (some ⟨0, t0 + 60⟩)).1 ::
              (runCalls 100 60 rest2 (some (consume 100 60 t1 (some ⟨0, t0 + 60⟩)).2)).1,
             (runCalls 100 60 rest2 (some (consume 100 60 t1 (some ⟨0, t0 + 60⟩)).2)).2)
        from rfl]
    rw [consume_expired t1 ⟨0, t0 + 60⟩ hexp]
    rw [runCalls_within_window rest2 99 (t1 + 60) (by norm_num) hrest2]
    rw [h99]
    norm_num
  refine ⟨?_, ?_, ?_, ?_, ?_⟩
  · intro now b hge
    by_cases hpos : 0 < (refresh 100 60 now b).points_remaining
    · refine ⟨?_, fun _ => ?_⟩
      · simp only [consume, hpos, if_true, ite_true]
        omega
      · simp [consume, hpos]
    · refine ⟨?_, fun hadm => ?_⟩
      · simp only [consume, hpos, if_false, ite_false]
        omega
      · simp [consume, hpos] at hadm
  · intro now b h
    simp [refresh, h]
  · rw [hb]
    show true :: (List.range 100).map (fun (i : Nat) => decide ((i : Int) < 99))
        = List.replicate 100 true ++ [false]
    decide
  · intro now b h hfalse
    simp [rateLimitedCall, hfalse]
  · rw [runCalls_append, hb, hb2]
    show (true :: (List.range 100).map (fun (i : Nat) => decide ((i : Int) < 99)))
          ++ (true :: (List.range 99).map (fun (i : Nat) => decide ((i : Int) < 99)))
        = (List.replicate 100 true ++ [false]) ++ List.replicate 100 true
    decide

set_option maxRecDepth 10000 in
/-- C4 witness: 101 calls at time 0 with one key, then 100 calls at time 60,
evaluated concretely: admit 100, reject 1, admit 100 again. -/
theorem C4_rate_limiter_witness :
    (runCalls 100 60
        ((0 :: List.replicate 100 0) ++ (60 :: List.replicate 99 60)) none).1
      = (List.replicate 100 true ++ [false]) ++ List.replicate 100 true :=
  (C4_rate_limiter 0 60 (List.replicate 100 0) (List.replicate 99 60)
    (by decide) (by decide) (by decide) (by decide) (by decide)).2.2.2.2

end WeatherDash
